import Mathlib

/-!
Shallow embedding of the Solaris panel-farm simulation core
(`solaris-py/panel/panel.py` and `solaris-py/farm/farm.py`).

Python floats are modelled as real numbers.  Randomness is modelled by
oracle arguments: each call that consumes a draw from a generator takes
the drawn value explicitly.  `random.random()` draws are reals in
`[0, 1)`; `random.uniform(a, b)` is `a + (b - a) * u` for a `[0, 1)`
draw `u`; `random.gauss` draws are unconstrained reals.
-/

/-- State of `Panel` (`panel.py`): every instance attribute set by
`Panel.__init__` that participates in the simulation.  The `random`
attribute (the rng) is not a field; draws are passed to operations as
oracle arguments. -/
structure Panel where
  panel_id : String
  max_output : ℝ
  fluctuation : ℝ
  failure_rate : ℝ
  current_degradation : ℝ
  failure_progression_rate : ℝ
  /-- per-hour rate: the annualized constructor argument divided by 8760 -/
  first_phase_degradation : ℝ
  /-- per-hour rate: the annualized constructor argument divided by 8760 -/
  annual_degradation : ℝ
  active_hours : ℕ
  days_to_replace : ℤ
  current_output : ℝ
  health : ℝ
  failing : Bool
  cleanliness : ℝ
  min_cleanliness : ℝ
  failure_detected : Bool

/-- `Panel.hours_in_year` -/
def Panel.hours_in_year : ℕ := 8760

/-- `Panel.__init__`: the constructor, with its parameters in source
order (`random_seed` only selects the rng in the source and is
otherwise unused).  The last four parameters default to
`0, 1.0, False, 1.0` in the source; callers of this definition pass
them explicitly. -/
noncomputable def Panel.init (panel_id : String) (random_seed : Option ℤ)
    (max_output current_degradation fluctuation failure_rate
     failure_progression_rate annual_degradation first_phase_degradation : ℝ)
    (active_hours : ℕ) (health : ℝ) (failing : Bool) (cleanliness : ℝ) :
    Panel :=
  { panel_id := panel_id
    max_output := max_output
    fluctuation := fluctuation
    failure_rate := failure_rate
    current_degradation := current_degradation
    failure_progression_rate := failure_progression_rate
    first_phase_degradation := first_phase_degradation / (Panel.hours_in_year : ℝ)
    annual_degradation := annual_degradation / (Panel.hours_in_year : ℝ)
    active_hours := active_hours
    days_to_replace := -1
    current_output := 0
    health := health
    failing := failing
    cleanliness := cleanliness
    min_cleanliness := 0.8
    failure_detected := false }

/-- `Panel._time_increment` -/
def Panel.time_increment (p : Panel) (hours : ℕ) : Panel :=
  { p with active_hours := p.active_hours + hours }

/-- `Panel._update_health`; `u` is the `self.random.random()` draw
(consumed only when the panel is not yet failing, but supplied always). -/
noncomputable def Panel.update_health (p : Panel) (u : ℝ) : Panel :=
  let failing' : Bool :=
    if p.failing then p.failing
    else if u < 1 - (1 - p.failure_rate) ^ p.active_hours then true
    else p.failing
  if failing' then
    { p with failing := failing',
             health := max 0 (p.health - p.failure_progression_rate * (p.active_hours : ℝ)) }
  else
    { p with failing := failing' }

/-- `Panel._calculate_degradation`: biphasic accrual.  Note the source
conditions and amounts are all written in terms of the (already
incremented) cumulative `self.active_hours`. -/
noncomputable def Panel.calculate_degradation (p : Panel) : Panel :=
  let year_one_boundary : ℝ := (Panel.hours_in_year : ℝ)
  let a : ℝ := (p.active_hours : ℝ)
  let degradation_to_add : ℝ :=
    if a ≥ year_one_boundary then a * p.annual_degradation
    else if a + a ≤ year_one_boundary then a * p.first_phase_degradation
    else
      let hours_left_in_year_one := year_one_boundary - a
      let hours_after_year_one := a - hours_left_in_year_one
      hours_left_in_year_one * p.first_phase_degradation
        + hours_after_year_one * p.annual_degradation
  { p with current_degradation := min 1 (p.current_degradation + degradation_to_add) }

/-- `Panel.calculate_dirt_acc`; `noise` is the
`self.random.gauss(0.0, 0.0005)` draw.  The source returns the new
cleanliness; here the whole updated panel is returned. -/
noncomputable def Panel.calculate_dirt_acc (p : Panel) (dirt_acc noise : ℝ) : Panel :=
  let remaining_potential := p.cleanliness - p.min_cleanliness
  let cleanliness_lost := remaining_potential * (dirt_acc + noise)
  { p with cleanliness := max (p.cleanliness - cleanliness_lost) p.min_cleanliness }

/-- `Panel.clean` -/
noncomputable def Panel.clean (p : Panel) (rain_amount : ℝ) : Panel :=
  if rain_amount = 0 then { p with cleanliness := 1 }
  else
    let rain_threshold : ℝ := 2
    let cementation_effect : ℝ := 0.005
    let max_effect : ℝ := 0.70
    let effective_rate : ℝ := 0.15
    if rain_amount < rain_threshold then
      { p with cleanliness := max p.min_cleanliness (p.cleanliness - cementation_effect) }
    else
      let rain_effectiveness := max_effect * (1 - Real.exp (effective_rate * rain_amount))
      let dirt_to_remove := 1 - p.cleanliness
      let cleanliness_gain := dirt_to_remove * rain_effectiveness
      { p with cleanliness := min 1 (p.cleanliness + cleanliness_gain) }

/-- `random.uniform(a, b)` for a base draw `u` of `random.random()`. -/
def uniform_draw (a b u : ℝ) : ℝ := a + (b - a) * u

/-- `Panel.calculate_output`; `u_fail` is the `_update_health` draw and
`u_fluct` the base draw of `self.random.uniform`.  Returns the returned
output together with the updated panel. -/
noncomputable def Panel.calculate_output (p : Panel) (ideal_output : ℝ) (hours : ℕ)
    (u_fail u_fluct : ℝ) : ℝ × Panel :=
  let p1 := (p.time_increment hours).update_health u_fail
  if p1.health ≤ 0 then (0, { p1 with current_output := 0 })
  else
    let p2 := p1.calculate_degradation
    let instability_factor : ℝ := min 10 (1 / (p2.health + 1e-6))
    let current_fluctuation := p2.fluctuation * instability_factor
    let fluctuation := uniform_draw (-current_fluctuation) current_fluctuation u_fluct
    let out := ideal_output * fluctuation * p2.cleanliness * p2.current_degradation
    (out, { p2 with current_output := out })

/-!
Farm (`farm.py`).  `Farm.registered_ids` is the process-wide set of
issued ids, modelled as a `List String`; the candidate draws of
`random.choices` are modelled as a stream `draw : ℕ → String` consumed
at an index `k` that the operations thread through.  The source's
unbounded `while` loop is embedded with explicit fuel: a `some` result
is a run of the loop that exited after at most `fuel` draws, `none`
means the loop was still running after `fuel` draws.
-/

/-- `Farm._generate_id`: draw a candidate, redraw while it is already
registered, then add the chosen id to the registry.  Returns the id,
the grown registry and the next draw index. -/
def Farm.generate_id (draw : ℕ → String) (reg : List String) (k : ℕ) :
    ℕ → Option (String × List String × ℕ)
  | 0 => none
  | fuel + 1 =>
    let gen_id := draw k
    if gen_id ∈ reg then Farm.generate_id draw reg (k + 1) fuel
    else some (gen_id, gen_id :: reg, k + 1)

/-- Iterated `Farm._generate_id`: issue `n` ids in sequence (as the
farm does when populating or replacing), threading registry and draw
index. -/
def Farm.generate_ids (draw : ℕ → String) :
    ℕ → List String → ℕ → ℕ → Option (List String × List String × ℕ)
  | 0, reg, k, _ => some ([], reg, k)
  | n + 1, reg, k, fuel =>
    match Farm.generate_id draw reg k fuel with
    | none => none
    | some (i, reg', k') =>
      match Farm.generate_ids draw n reg' k' fuel with
      | none => none
      | some (ids, reg'', k'') => some (i :: ids, reg'', k'')

/-- The constructor parameters a farm's `panel_config` dict supplies to
`Panel(**panel_config)` (everything required by `Panel.__init__`
except `panel_id`, which `_generate_panel` overwrites with a fresh id;
the state parameters `active_hours`, `health`, `failing`,
`cleanliness` are left to their declared defaults). -/
structure PanelConfig where
  random_seed : Option ℤ
  max_output : ℝ
  current_degradation : ℝ
  fluctuation : ℝ
  failure_rate : ℝ
  failure_progression_rate : ℝ
  annual_degradation : ℝ
  first_phase_degradation : ℝ

/-- `Farm._generate_panel` after the fresh id has been merged into the
config: `Panel(**panel_config)` with the state defaults
`active_hours=0, health=1.0, failing=False, cleanliness=1.0`. -/
noncomputable def Farm.generate_panel (cfg : PanelConfig) (panel_id : String) : Panel :=
  Panel.init panel_id cfg.random_seed cfg.max_output cfg.current_degradation
    cfg.fluctuation cfg.failure_rate cfg.failure_progression_rate
    cfg.annual_degradation cfg.first_phase_degradation 0 1 false 1

/-- The loop body of `Farm.replace_if_needed`, iterating over the
members in dict order.  Returns `(survivors, appended, reg, k)`:
the processed original members in order, then the replacement panels
(CPython appends each replacement at the end of the dict, where the
same loop later visits it; a fresh panel has `days_to_replace = -1`,
so that visit leaves it untouched). -/
noncomputable def Farm.replace_loop (cfg : PanelConfig) (draw : ℕ → String) (fuel : ℕ) :
    List (String × Panel) → List String → ℕ →
    Option (List (String × Panel) × List (String × Panel) × List String × ℕ)
  | [], reg, k => some ([], [], reg, k)
  | (pid, p) :: rest, reg, k =>
    if p.days_to_replace = 0 then
      match Farm.generate_id draw reg k fuel with
      | none => none
      | some (nid, reg', k') =>
        match Farm.replace_loop cfg draw fuel rest reg' k' with
        | none => none
        | some (survivors, appended, reg'', k'') =>
          some (survivors, (nid, Farm.generate_panel cfg nid) :: appended, reg'', k'')
    else if 0 < p.days_to_replace then
      match Farm.replace_loop cfg draw fuel rest reg k with
      | none => none
      | some (survivors, appended, reg', k') =>
        some ((pid, { p with days_to_replace := p.days_to_replace - 1 }) :: survivors,
              appended, reg', k')
    else
      match Farm.replace_loop cfg draw fuel rest reg k with
      | none => none
      | some (survivors, appended, reg', k') =>
        some ((pid, p) :: survivors, appended, reg', k')

/-- `Farm.replace_if_needed`: the final members mapping in dict order
(survivors in their original order, replacement panels appended). -/
noncomputable def Farm.replace_if_needed (cfg : PanelConfig) (draw : ℕ → String) (fuel : ℕ)
    (members : List (String × Panel)) (reg : List String) (k : ℕ) :
    Option (List (String × Panel) × List String × ℕ) :=
  match Farm.replace_loop cfg draw fuel members reg k with
  | none => none
  | some (survivors, appended, reg', k') => some (survivors ++ appended, reg', k')

/-- Inner loop of `Farm.calculate_dirt_acc`: one hour's farm-wide
`dirt_acc` applied to every member in order; `noise_h i` is the gauss
draw panel `i`'s own rng produces inside `Panel.calculate_dirt_acc`. -/
noncomputable def Farm.apply_dirt (dirt_acc : ℝ) (noise_h : ℕ → ℝ) :
    List Panel → ℕ → List Panel
  | [], _ => []
  | p :: ps, i => p.calculate_dirt_acc dirt_acc (noise_h i) :: Farm.apply_dirt dirt_acc noise_h ps (i + 1)

/-- `Farm.calculate_dirt_acc`: for each of `hours` iterations, one
farm-wide `random.gauss(dirt_mu, dirt_sigma)` draw (the stream `gauss`
at the running index), clamped to `≥ 0`, applied to every member.
Returns the members and the next farm-level draw index. -/
noncomputable def Farm.calculate_dirt_acc (gauss : ℕ → ℝ) (noise : ℕ → ℕ → ℝ) :
    ℕ → List Panel → ℕ → List Panel × ℕ
  | 0, panels, k => (panels, k)
  | hours + 1, panels, k =>
    let dirt_acc := max 0 (gauss k)
    Farm.calculate_dirt_acc gauss noise hours (Farm.apply_dirt dirt_acc (noise k) panels 0) (k + 1)

/-- Spec-side description of what `replace-if-needed` does to a single
existing member, following the spec's words: a member with
`days_to_replace = 0` is removed (`none`), a positive counter is
decremented by one, and any other member is untouched. -/
def replace_member_spec (e : String × Panel) : Option (String × Panel) :=
  if e.2.days_to_replace = 0 then none
  else if 0 < e.2.days_to_replace then
    some (e.1, { e.2 with days_to_replace := e.2.days_to_replace - 1 })
  else some e

/-- A concrete panel configuration (template) for witnesses. -/
noncomputable def cfgW : PanelConfig :=
  { random_seed := none, max_output := 100, current_degradation := 0.5,
    fluctuation := 0.05, failure_rate := 0.001, failure_progression_rate := 0.01,
    annual_degradation := 0.005, first_phase_degradation := 0.02 }

/-- A panel whose replacement is due (`days_to_replace = 0`). -/
noncomputable def duePanel : Panel :=
  { Farm.generate_panel cfgW "AB" with days_to_replace := 0 }

/-- A panel freshly constructed at the cleanliness floor (the
constructor hard-codes `min_cleanliness = 0.8`). -/
noncomputable def floorPanel : Panel :=
  Panel.init "AA000000" none 100 0.5 0.05 0.001 0.01 0.005 0.02 0 1 false 0.8

/-- A panel that has been active 8750 hours, about to step across the
8760-hour boundary. -/
noncomputable def boundaryPanel : Panel :=
  Panel.init "AA000001" none 100 0 0.05 0.001 0.01 0.005 0.02 8750 1 false 1

/-- A slightly dirty panel (cleanliness 0.9). -/
noncomputable def dirtyPanel : Panel :=
  Panel.init "AA000002" none 100 0.5 0.05 0.001 0.01 0.005 0.02 0 1 false 0.9

/-- A live panel (full health and cleanliness, accumulated degradation
0.5) whose `fluctuation` parameter is zero. -/
noncomputable def rigidPanel : Panel :=
  Panel.init "AA000003" none 100 0.5 0 0 0 0.005 0.02 0 1 false 1

/-! ## Theorems -/

lemma Panel.init_current_degradation (pid rs mo cd fl fr fpr ad fpd ah h fg cl) :
    (Panel.init pid rs mo cd fl fr fpr ad fpd ah h fg cl).current_degradation = cd := rfl

@[simp] lemma Panel.time_increment_active_hours (p : Panel) (hours : ℕ) :
    (p.time_increment hours).active_hours = p.active_hours + hours := rfl

@[simp] lemma Panel.time_increment_failing (p : Panel) (hours : ℕ) :
    (p.time_increment hours).failing = p.failing := rfl

@[simp] lemma Panel.time_increment_health (p : Panel) (hours : ℕ) :
    (p.time_increment hours).health = p.health := rfl

@[simp] lemma Panel.time_increment_fluctuation (p : Panel) (hours : ℕ) :
    (p.time_increment hours).fluctuation = p.fluctuation := rfl

@[simp] lemma Panel.time_increment_cleanliness (p : Panel) (hours : ℕ) :
    (p.time_increment hours).cleanliness = p.cleanliness := rfl

@[simp] lemma Panel.time_increment_failure_rate (p : Panel) (hours : ℕ) :
    (p.time_increment hours).failure_rate = p.failure_rate := rfl

@[simp] lemma Panel.time_increment_current_degradation (p : Panel) (hours : ℕ) :
    (p.time_increment hours).current_degradation = p.current_degradation := rfl

@[simp] lemma Panel.time_increment_annual_degradation (p : Panel) (hours : ℕ) :
    (p.time_increment hours).annual_degradation = p.annual_degradation := rfl

@[simp] lemma Panel.time_increment_first_phase_degradation (p : Panel) (hours : ℕ) :
    (p.time_increment hours).first_phase_degradation = p.first_phase_degradation := rfl

lemma Panel.update_health_shape (p : Panel) (u : ℝ) :
    ∃ h f, p.update_health u = { p with health := h, failing := f } := by
  unfold Panel.update_health
  dsimp only
  repeat' split
  all_goals exact ⟨_, _, rfl⟩

@[simp] lemma Panel.update_health_fluctuation (p : Panel) (u : ℝ) :
    (p.update_health u).fluctuation = p.fluctuation := by
  obtain ⟨h, f, heq⟩ := Panel.update_health_shape p u
  rw [heq]

@[simp] lemma Panel.update_health_cleanliness (p : Panel) (u : ℝ) :
    (p.update_health u).cleanliness = p.cleanliness := by
  obtain ⟨h, f, heq⟩ := Panel.update_health_shape p u
  rw [heq]

@[simp] lemma Panel.update_health_current_degradation (p : Panel) (u : ℝ) :
    (p.update_health u).current_degradation = p.current_degradation := by
  obtain ⟨h, f, heq⟩ := Panel.update_health_shape p u
  rw [heq]

@[simp] lemma Panel.update_health_active_hours (p : Panel) (u : ℝ) :
    (p.update_health u).active_hours = p.active_hours := by
  obtain ⟨h, f, heq⟩ := Panel.update_health_shape p u
  rw [heq]

@[simp] lemma Panel.update_health_annual_degradation (p : Panel) (u : ℝ) :
    (p.update_health u).annual_degradation = p.annual_degradation := by
  obtain ⟨h, f, heq⟩ := Panel.update_health_shape p u
  rw [heq]

@[simp] lemma Panel.update_health_first_phase_degradation (p : Panel) (u : ℝ) :
    (p.update_health u).first_phase_degradation = p.first_phase_degradation := by
  obtain ⟨h, f, heq⟩ := Panel.update_health_shape p u
  rw [heq]

@[simp] lemma Panel.calculate_degradation_health (p : Panel) :
    p.calculate_degradation.health = p.health := rfl

@[simp] lemma Panel.calculate_degradation_fluctuation (p : Panel) :
    p.calculate_degradation.fluctuation = p.fluctuation := rfl

@[simp] lemma Panel.calculate_degradation_cleanliness (p : Panel) :
    p.calculate_degradation.cleanliness = p.cleanliness := rfl

/-- C10: every freshly constructed `Panel` has `days_to_replace = -1`,
`current_output = 0.0`, `failure_detected = False` and
`min_cleanliness = 0.8`, whatever the constructor arguments are: none
of these four fields is configurable at construction. -/
theorem panel_init_fixed_fields (pid : String) (rs : Option ℤ)
    (mo cd fl fr fpr ad fpd : ℝ) (ah : ℕ) (h : ℝ) (fg : Bool) (cl : ℝ) :
    (Panel.init pid rs mo cd fl fr fpr ad fpd ah h fg cl).days_to_replace = -1 ∧
    (Panel.init pid rs mo cd fl fr fpr ad fpd ah h fg cl).current_output = 0 ∧
    (Panel.init pid rs mo cd fl fr fpr ad fpd ah h fg cl).failure_detected = false ∧
    (Panel.init pid rs mo cd fl fr fpr ad fpd ah h fg cl).min_cleanliness = 0.8 :=
  ⟨rfl, rfl, rfl, rfl⟩

/-- C1 (falsified): `clean` with a heavy rain amount (20 mm) drives the
cleanliness of a panel sitting at the floor strictly below
`min_cleanliness`, because the rain-effectiveness formula
`0.70 * (1 - exp (0.15 * rain))` is negative for `rain ≥ 2` and the
result is only capped above by `1.0`, never floored.  So the invariant
`min_cleanliness ≤ cleanliness` does not survive every operation. -/
theorem clean_breaks_cleanliness_floor :
    ((floorPanel.clean 20).cleanliness < floorPanel.min_cleanliness) := by
  have hexp : (4 : ℝ) ≤ Real.exp 3 := by
    have h := Real.add_one_le_exp (3 : ℝ)
    linarith
  have h3 : (0.15 : ℝ) * 20 = 3 := by norm_num
  unfold floorPanel Panel.clean Panel.init
  rw [if_neg (by norm_num : (20 : ℝ) ≠ 0)]
  simp only
  rw [if_neg (by norm_num : ¬ (20 : ℝ) < 2)]
  simp only [h3]
  refine lt_of_le_of_lt (min_le_right _ _) ?_
  nlinarith

/-- C2 (falsified): stepping 20 hours from `active_hours = 8750` does
not add `10 * first_phase_degradation + 10 * annual_degradation`: the
source computes the accrual from the cumulative post-increment
`active_hours` (8770), taking the `active_hours >= 8760` branch and
adding `8770 * annual_degradation`. -/
theorem degradation_not_boundary_split :
    (boundaryPanel.time_increment 20).calculate_degradation.current_degradation
        - boundaryPanel.current_degradation
      ≠ 10 * boundaryPanel.first_phase_degradation
          + 10 * boundaryPanel.annual_degradation := by
  unfold boundaryPanel Panel.time_increment Panel.calculate_degradation Panel.init
    Panel.hours_in_year
  norm_num [min_def]

/-- C2, the divergence made positive: at the same input the code's
accrual equals `8770 * annual_degradation` (cumulative hours times the
post-year rate), not the boundary-split amount. -/
theorem degradation_uses_cumulative_hours :
    (boundaryPanel.time_increment 20).calculate_degradation.current_degradation
        - boundaryPanel.current_degradation
      = 8770 * boundaryPanel.annual_degradation := by
  unfold boundaryPanel Panel.time_increment Panel.calculate_degradation Panel.init
    Panel.hours_in_year
  norm_num [min_def]

/-- C7 (falsified as stated): `rain_amount = 0.0` is below the 2.0 mm
threshold, yet `clean 0` is the manual-clean branch and resets
cleanliness to 1.0, strictly increasing it for a panel at
cleanliness 0.9. -/
theorem clean_zero_rain_increases_cleanliness :
    (0 : ℝ) < 2 ∧
      dirtyPanel.cleanliness < (dirtyPanel.clean 0).cleanliness := by
  constructor
  · norm_num
  · unfold dirtyPanel Panel.clean Panel.init
    rw [if_pos rfl]
    norm_num

/-- C7 (amended): for every nonzero `rain_amount < 2.0` and every panel
whose cleanliness is at or above its floor, `clean` never increases
cleanliness: it applies the fixed cementation decrease, floored at
`min_cleanliness`. -/
theorem clean_light_rain_never_increases (p : Panel) (rain_amount : ℝ)
    (h0 : rain_amount ≠ 0) (h2 : rain_amount < 2)
    (hc : p.min_cleanliness ≤ p.cleanliness) :
    (p.clean rain_amount).cleanliness ≤ p.cleanliness := by
  unfold Panel.clean
  rw [if_neg h0]
  simp only
  rw [if_pos h2]
  exact max_le hc (by linarith)

/-- C7 witness at `rain_amount = 1` on a fresh panel. -/
theorem clean_light_rain_never_increases_witness :
    (1 : ℝ) ≠ 0 ∧ (1 : ℝ) < 2 ∧
      floorPanel.min_cleanliness ≤ floorPanel.cleanliness ∧
      (floorPanel.clean 1).cleanliness ≤ floorPanel.cleanliness := by
  refine ⟨by norm_num, by norm_num, ?_, ?_⟩
  · unfold floorPanel Panel.init; norm_num
  · exact clean_light_rain_never_increases floorPanel 1 (by norm_num) (by norm_num)
      (by unfold floorPanel Panel.init; norm_num)

/-- C4 (falsified/code bug): when every candidate the draw stream can
produce is already registered (an exhausted id space), the
`_generate_id` retry loop never exits: no amount of fuel makes the
embedded loop return, and the source has no capacity-exhausted signal
at all. -/
theorem generate_id_exhausted_never_returns (draw : ℕ → String) (reg : List String)
    (hall : ∀ j, draw j ∈ reg) :
    ∀ fuel k, Farm.generate_id draw reg k fuel = none := by
  intro fuel
  induction fuel with
  | zero => intro k; rfl
  | succ n ih =>
    intro k
    simp only [Farm.generate_id]
    rw [if_pos (hall k)]
    exact ih (k + 1)

/-- C4 witness: a one-id space already fully registered. -/
theorem generate_id_exhausted_never_returns_witness :
    (∀ j : ℕ, (fun _ => "AA000000") j ∈ ["AA000000"]) ∧
      Farm.generate_id (fun _ => "AA000000") ["AA000000"] 0 5 = none := by
  refine ⟨fun _ => by simp, ?_⟩
  exact generate_id_exhausted_never_returns (fun _ => "AA000000") ["AA000000"]
    (fun _ => by simp) 5 0

lemma Farm.generate_id_spec {draw : ℕ → String} {reg : List String} {k fuel : ℕ}
    {i : String} {reg' : List String} {k' : ℕ}
    (h : Farm.generate_id draw reg k fuel = some (i, reg', k')) :
    i ∉ reg ∧ reg' = i :: reg := by
  induction fuel generalizing k with
  | zero => exact absurd h (by simp [Farm.generate_id])
  | succ n ih =>
    simp only [Farm.generate_id] at h
    by_cases hm : draw k ∈ reg
    · rw [if_pos hm] at h
      exact ih h
    · rw [if_neg hm] at h
      simp only [Option.some.injEq, Prod.mk.injEq] at h
      obtain ⟨h1, h2, -⟩ := h
      subst h1
      exact ⟨hm, h2.symm⟩

lemma Farm.generate_ids_spec {draw : ℕ → String} {n : ℕ} {reg : List String}
    {k fuel : ℕ} {ids reg'' : List String} {k'' : ℕ}
    (h : Farm.generate_ids draw n reg k fuel = some (ids, reg'', k'')) :
    reg'' = ids.reverse ++ reg ∧ ids.Nodup ∧ ∀ i ∈ ids, i ∉ reg := by
  induction n generalizing reg k ids reg'' k'' with
  | zero =>
    simp only [Farm.generate_ids, Option.some.injEq, Prod.mk.injEq] at h
    obtain ⟨h1, h2, -⟩ := h
    subst h1
    simp [h2.symm]
  | succ n ih =>
    simp only [Farm.generate_ids] at h
    cases hg : Farm.generate_id draw reg k fuel with
    | none => rw [hg] at h; exact absurd h (by simp)
    | some v =>
      obtain ⟨i, reg', k'⟩ := v
      rw [hg] at h
      dsimp only at h
      cases hgs : Farm.generate_ids draw n reg' k' fuel with
      | none => rw [hgs] at h; exact absurd h (by simp)
      | some w =>
        obtain ⟨ids', regF, kF⟩ := w
        rw [hgs] at h
        simp only [Option.some.injEq, Prod.mk.injEq] at h
        obtain ⟨h1, h2, h3⟩ := h
        subst h1 h2 h3
        obtain ⟨hfresh, hreg'⟩ := Farm.generate_id_spec hg
        subst hreg'
        obtain ⟨hrev, hnd, hall⟩ := ih hgs
        refine ⟨?_, ?_, ?_⟩
        · rw [hrev]; simp
        · refine List.nodup_cons.mpr ⟨fun hmem => ?_, hnd⟩
          have := hall i hmem
          simp at this
        · intro j hj
          rcases List.mem_cons.mp hj with rfl | hj'
          · exact hfresh
          · have := hall j hj'
            simp at this
            exact this.2

/-- C6: a `some` result of the `_generate_id` loop is an id that was
not in `registered_ids` when it is returned, and the registry after
the call is the old registry with exactly that id added (so the
registry only grows and retired ids are never removed); consequently
any sequence of successful generations issues pairwise-distinct ids,
each fresh w.r.t. the initial registry and present in the final one. -/
theorem generate_id_ids_distinct :
    (∀ (draw : ℕ → String) (reg : List String) (k fuel : ℕ) (i : String)
        (reg' : List String) (k' : ℕ),
        Farm.generate_id draw reg k fuel = some (i, reg', k') →
        i ∉ reg ∧ reg' = i :: reg) ∧
    (∀ (draw : ℕ → String) (n : ℕ) (reg : List String) (k fuel : ℕ)
        (ids reg'' : List String) (k'' : ℕ),
        Farm.generate_ids draw n reg k fuel = some (ids, reg'', k'') →
        ids.Nodup ∧ ∀ i ∈ ids, i ∉ reg ∧ i ∈ reg'') := by
  constructor
  · intro draw reg k fuel i reg' k' h
    exact Farm.generate_id_spec h
  · intro draw n reg k fuel ids reg'' k'' h
    obtain ⟨hrev, hnd, hall⟩ := Farm.generate_ids_spec h
    refine ⟨hnd, fun i hi => ⟨hall i hi, ?_⟩⟩
    rw [hrev]
    exact List.mem_append.mpr (Or.inl (List.mem_reverse.mpr hi))

/-- C3: for a step in which the panel is still alive after the health
update, the output is the literal product
`ideal_power * f * cleanliness * current_degradation` (the accumulated
loss fraction, not `1 - current_degradation`), where `f` is the uniform
draw from `[-a, a]` with
`a = fluctuation * min 10 (1 / (health + 1e-6))`. -/
theorem calculate_output_formula (p : Panel) (ideal_output : ℝ) (hours : ℕ)
    (u_fail u_fluct : ℝ)
    (hu0 : 0 ≤ u_fluct) (hu1 : u_fluct ≤ 1) (hfl : 0 ≤ p.fluctuation)
    (hh : 0 < ((p.time_increment hours).update_health u_fail).health) :
    ∃ f : ℝ,
      (p.calculate_output ideal_output hours u_fail u_fluct).1
        = ideal_output * f * p.cleanliness
            * ((p.time_increment hours).update_health u_fail).calculate_degradation.current_degradation ∧
      |f| ≤ p.fluctuation
            * min 10 (1 / (((p.time_increment hours).update_health u_fail).health + 1e-6)) := by
  have hm : (0 : ℝ) ≤ min 10 (1 / (((p.time_increment hours).update_health u_fail).health + 1e-6)) := by
    refine le_min (by norm_num) ?_
    positivity
  refine ⟨uniform_draw
      (-(p.fluctuation * min 10 (1 / (((p.time_increment hours).update_health u_fail).health + 1e-6))))
      (p.fluctuation * min 10 (1 / (((p.time_increment hours).update_health u_fail).health + 1e-6)))
      u_fluct, ?_, ?_⟩
  · unfold Panel.calculate_output
    dsimp only
    rw [if_neg (not_le.mpr hh)]
    simp only [Panel.calculate_degradation_fluctuation, Panel.calculate_degradation_health,
      Panel.calculate_degradation_cleanliness, Panel.update_health_fluctuation,
      Panel.update_health_cleanliness, Panel.time_increment_fluctuation,
      Panel.time_increment_cleanliness]
  · unfold uniform_draw
    rw [abs_le]
    have ha0 : 0 ≤ p.fluctuation
        * min 10 (1 / (((p.time_increment hours).update_health u_fail).health + 1e-6)) :=
      mul_nonneg hfl hm
    constructor <;> nlinarith

/-- C3 witness on a concrete panel: a fresh panel steps one hour with
draw `u_fail = 2` (no failure onset) and base uniform draw `0.25`. -/
theorem calculate_output_formula_witness :
    (0 : ℝ) ≤ 0.25 ∧ (0.25 : ℝ) ≤ 1 ∧ 0 ≤ floorPanel.fluctuation ∧
    0 < ((floorPanel.time_increment 1).update_health 2).health ∧
    ∃ f : ℝ,
      (floorPanel.calculate_output 50 1 2 0.25).1
        = 50 * f * floorPanel.cleanliness
            * ((floorPanel.time_increment 1).update_health 2).calculate_degradation.current_degradation ∧
      |f| ≤ floorPanel.fluctuation
            * min 10 (1 / (((floorPanel.time_increment 1).update_health 2).health + 1e-6)) := by
  have hfl : (0 : ℝ) ≤ floorPanel.fluctuation := by norm_num [floorPanel, Panel.init]
  have hh : 0 < ((floorPanel.time_increment 1).update_health 2).health := by
    norm_num [floorPanel, Panel.init, Panel.time_increment, Panel.update_health]
  exact ⟨by norm_num, by norm_num, hfl, hh,
    calculate_output_formula floorPanel 50 1 2 0.25 (by norm_num) (by norm_num) hfl hh⟩

lemma calculate_output_zero_fluct (p : Panel) (ideal : ℝ) (hours : ℕ) (u1 u2 : ℝ)
    (hf : p.fluctuation = 0) : (p.calculate_output ideal hours u1 u2).1 = 0 := by
  unfold Panel.calculate_output
  dsimp only
  split
  · rfl
  · have h2 : ((p.time_increment hours).update_health u1).calculate_degradation.fluctuation
        = 0 := by simp [hf]
    rw [h2]
    simp [uniform_draw]

/-- C9 (falsified as stated): a live panel (`health > 0`,
`cleanliness > 0`, `current_degradation > 0`) with `fluctuation = 0`
and positive ideal power yields output exactly 0 for every admissible
pair of RNG draws, so no draws make the output strictly negative. -/
theorem zero_fluctuation_output_never_negative :
    0 < rigidPanel.health ∧ 0 < rigidPanel.cleanliness ∧
    0 < rigidPanel.current_degradation ∧ (0 : ℝ) < 100 ∧
    ¬ ∃ u_fail u_fluct : ℝ, (0 ≤ u_fail ∧ u_fail < 1) ∧ (0 ≤ u_fluct ∧ u_fluct < 1) ∧
        (rigidPanel.calculate_output 100 1 u_fail u_fluct).1 < 0 := by
  refine ⟨by norm_num [rigidPanel, Panel.init], by norm_num [rigidPanel, Panel.init],
    by norm_num [rigidPanel, Panel.init], by norm_num, ?_⟩
  rintro ⟨u1, u2, -, -, hneg⟩
  rw [calculate_output_zero_fluct rigidPanel 100 1 u1 u2
    (by norm_num [rigidPanel, Panel.init])] at hneg
  exact absurd hneg (by norm_num)

lemma Panel.calculate_degradation_pos (p : Panel) (hd : 0 < p.current_degradation)
    (hann : 0 ≤ p.annual_degradation) (hfp : 0 ≤ p.first_phase_degradation) :
    0 < p.calculate_degradation.current_degradation := by
  unfold Panel.calculate_degradation
  dsimp only
  have ha : (0 : ℝ) ≤ (p.active_hours : ℝ) := Nat.cast_nonneg _
  refine lt_min one_pos ?_
  split
  · nlinarith [mul_nonneg ha hann]
  · split
    · nlinarith [mul_nonneg ha hfp]
    · rename_i h1 h2
      push_neg at h1 h2
      have hb : ((Panel.hours_in_year : ℕ) : ℝ) = 8760 := by
        norm_num [Panel.hours_in_year]
      rw [hb] at h1 h2
      nlinarith [mul_nonneg (by linarith : (0 : ℝ) ≤ 8760 - (p.active_hours : ℝ)) hfp,
        mul_nonneg (by linarith : (0 : ℝ) ≤ (p.active_hours : ℝ) - (8760 - (p.active_hours : ℝ))) hann]

/-- C9 (amended): for a unit that is not yet failing, with positive
`fluctuation`, hazard `failure_rate` in `[0, 1)`, positive health,
cleanliness and accumulated degradation, nonnegative degradation
rates, and positive ideal power, there are admissible RNG draws for
which `calculate_output` returns a strictly negative output (the
uniform fluctuation factor multiplies the whole product, so its
negative half makes the output negative). -/
theorem calculate_output_negative_possible (p : Panel) (ideal_output : ℝ) (hours : ℕ)
    (hfl : 0 < p.fluctuation) (hfail : p.failing = false)
    (hfr0 : 0 ≤ p.failure_rate) (hfr1 : p.failure_rate < 1)
    (hh : 0 < p.health) (hc : 0 < p.cleanliness) (hd : 0 < p.current_degradation)
    (hann : 0 ≤ p.annual_degradation) (hfp : 0 ≤ p.first_phase_degradation)
    (hideal : 0 < ideal_output) :
    ∃ u_fail u_fluct : ℝ, (0 ≤ u_fail ∧ u_fail < 1) ∧ (0 ≤ u_fluct ∧ u_fluct < 1) ∧
      (p.calculate_output ideal_output hours u_fail u_fluct).1 < 0 := by
  set q : ℝ := (1 - p.failure_rate) ^ (p.active_hours + hours) with hq
  have hq0 : 0 < q := pow_pos (by linarith) _
  have hq1 : q ≤ 1 := pow_le_one₀ (by linarith) (by linarith)
  refine ⟨1 - q, 0, ⟨by linarith, by linarith⟩, ⟨le_refl 0, by norm_num⟩, ?_⟩
  have hp1 : (p.time_increment hours).update_health (1 - q)
      = { p.time_increment hours with failing := false } := by
    unfold Panel.update_health
    simp only [Panel.time_increment_failing, Panel.time_increment_failure_rate,
      Panel.time_increment_active_hours, hfail, ← hq]
    have hirr : ¬ (1 - q < 1 - q) := lt_irrefl _
    simp [hirr]
  unfold Panel.calculate_output
  dsimp only
  rw [hp1]
  set L : Panel := { p.time_increment hours with failing := false } with hL
  have hLh : L.health = p.health := rfl
  have hLf : L.calculate_degradation.fluctuation = p.fluctuation := rfl
  have hLc : L.calculate_degradation.cleanliness = p.cleanliness := rfl
  have hLh2 : L.calculate_degradation.health = p.health := rfl
  rw [if_neg (not_le.mpr (show (0 : ℝ) < L.health from hh))]
  have hdpos : 0 < L.calculate_degradation.current_degradation := by
    refine Panel.calculate_degradation_pos _ ?_ ?_ ?_
    · exact hd
    · exact hann
    · exact hfp
  have hmpos : 0 < min 10 (1 / (p.health + 1e-6)) :=
    lt_min (by norm_num) (by positivity)
  dsimp only
  simp only [hLf, hLc, hLh2]
  simp only [uniform_draw, mul_zero, add_zero]
  nlinarith [mul_pos (mul_pos (mul_pos hideal (mul_pos hfl hmpos)) hc) hdpos]

/-- C9 amended-claim witness on a concrete panel. -/
theorem calculate_output_negative_possible_witness :
    ∃ u_fail u_fluct : ℝ, (0 ≤ u_fail ∧ u_fail < 1) ∧ (0 ≤ u_fluct ∧ u_fluct < 1) ∧
      (floorPanel.calculate_output 100 1 u_fail u_fluct).1 < 0 :=
  calculate_output_negative_possible floorPanel 100 1
    (by norm_num [floorPanel, Panel.init])
    (by norm_num [floorPanel, Panel.init])
    (by norm_num [floorPanel, Panel.init])
    (by norm_num [floorPanel, Panel.init])
    (by norm_num [floorPanel, Panel.init])
    (by norm_num [floorPanel, Panel.init])
    (by norm_num [floorPanel, Panel.init])
    (by norm_num [floorPanel, Panel.init, Panel.hours_in_year])
    (by norm_num [floorPanel, Panel.init, Panel.hours_in_year])
    (by norm_num)

lemma Farm.apply_dirt_getElem (dirt : ℝ) (nh : ℕ → ℝ) :
    ∀ (l : List Panel) (j i : ℕ),
      (Farm.apply_dirt dirt nh l j)[i]?
        = (l[i]?).map (fun p => p.calculate_dirt_acc dirt (nh (j + i))) := by
  intro l
  induction l with
  | nil => intro j i; simp [Farm.apply_dirt]
  | cons p ps ih =>
    intro j i
    cases i with
    | zero => simp [Farm.apply_dirt]
    | succ n =>
      simp only [Farm.apply_dirt, List.getElem?_cons_succ, ih (j + 1) n]
      have : j + 1 + n = j + (n + 1) := by omega
      rw [this]

/-- C8: `Farm.calculate_dirt_acc hours` consumes exactly `hours`
farm-level Gaussian draws (the draw index advances from `k` to
`k + hours`), and every member panel is passed, hour by hour, through
`Panel.calculate_dirt_acc` with that hour's single farm-wide magnitude
`max 0 (gauss (k+h))` — the same clamped-nonnegative magnitude for
every member of that hour (only the panel-private `noise` differs). -/
theorem farm_dirt_acc_spec (gauss : ℕ → ℝ) (noise : ℕ → ℕ → ℝ) (hours : ℕ)
    (panels : List Panel) (k : ℕ) :
    (Farm.calculate_dirt_acc gauss noise hours panels k).2 = k + hours ∧
    ∀ i p, panels[i]? = some p →
      (Farm.calculate_dirt_acc gauss noise hours panels k).1[i]?
        = some ((List.range hours).foldl
            (fun (q : Panel) h => q.calculate_dirt_acc (max 0 (gauss (k + h))) (noise (k + h) i)) p) := by
  induction hours generalizing panels k with
  | zero =>
    refine ⟨by simp [Farm.calculate_dirt_acc], ?_⟩
    intro i p hp
    simpa [Farm.calculate_dirt_acc] using hp
  | succ h ih =>
    refine ⟨?_, ?_⟩
    · show (Farm.calculate_dirt_acc gauss noise h
          (Farm.apply_dirt (max 0 (gauss k)) (noise k) panels 0) (k + 1)).2 = k + (h + 1)
      rw [(ih _ (k + 1)).1]
      omega
    · intro i p hp
      have hstep := Farm.apply_dirt_getElem (max 0 (gauss k)) (noise k) panels 0 i
      rw [hp, Option.map_some', Nat.zero_add] at hstep
      have hres := (ih (Farm.apply_dirt (max 0 (gauss k)) (noise k) panels 0) (k + 1)).2 i
        (p.calculate_dirt_acc (max 0 (gauss k)) (noise k i)) hstep
      show (Farm.calculate_dirt_acc gauss noise h
          (Farm.apply_dirt (max 0 (gauss k)) (noise k) panels 0) (k + 1)).1[i]? = _
      rw [hres]
      congr 1
      rw [List.range_succ_eq_map, List.foldl_cons, List.foldl_map]
      simp only [Nat.add_zero]
      refine List.foldl_ext _ _ _ fun x y hy => ?_
      have hk : k + 1 + y = k + (y + 1) := by omega
      rw [hk]

/-- C8 witness: three hours of soiling on a single-panel farm consume
exactly three farm draws and fold three per-hour applications. -/
theorem farm_dirt_acc_spec_witness :
    ([floorPanel][0]? = some floorPanel) ∧
    (Farm.calculate_dirt_acc (fun _ => (1 : ℝ)) (fun _ _ => (0 : ℝ)) 3 [floorPanel] 0).2 = 0 + 3 ∧
    (Farm.calculate_dirt_acc (fun _ => (1 : ℝ)) (fun _ _ => (0 : ℝ)) 3 [floorPanel] 0).1[0]?
      = some ((List.range 3).foldl
          (fun (q : Panel) h => q.calculate_dirt_acc (max 0 ((fun _ => (1 : ℝ)) (0 + h)))
            ((fun _ _ => (0 : ℝ)) (0 + h) 0)) floorPanel) :=
  ⟨by simp,
   (farm_dirt_acc_spec (fun _ => (1 : ℝ)) (fun _ _ => (0 : ℝ)) 3 [floorPanel] 0).1,
   (farm_dirt_acc_spec (fun _ => (1 : ℝ)) (fun _ _ => (0 : ℝ)) 3 [floorPanel] 0).2 0 floorPanel
     (by simp)⟩

/-- C6 witness: two successive generations from an initially empty
registry issue distinct fresh ids, both recorded in the registry. -/
theorem generate_id_ids_distinct_witness :
    Farm.generate_ids (fun j => if j = 0 then "AB123456" else "CD654321") 2 [] 0 3
        = some (["AB123456", "CD654321"], ["CD654321", "AB123456"], 2) ∧
      (["AB123456", "CD654321"] : List String).Nodup ∧
      ∀ i ∈ (["AB123456", "CD654321"] : List String),
        i ∉ ([] : List String) ∧ i ∈ (["CD654321", "AB123456"] : List String) := by
  refine ⟨by decide, ?_⟩
  exact generate_id_ids_distinct.2 (fun j => if j = 0 then "AB123456" else "CD654321")
    2 [] 0 3 ["AB123456", "CD654321"] ["CD654321", "AB123456"] 2 (by decide)

lemma assoc_value_unique :
    ∀ (l : List (String × Panel)), (l.map Prod.fst).Nodup →
      ∀ (i : String) (q q' : Panel), (i, q) ∈ l → (i, q') ∈ l → q = q' := by
  intro l
  induction l with
  | nil => intro _ i q q' h1 _; simp at h1
  | cons e rest ih =>
    intro hnd i q q' h1 h2
    rw [List.map_cons, List.nodup_cons] at hnd
    obtain ⟨hni, hnd'⟩ := hnd
    rcases List.mem_cons.mp h1 with h1e | h1t
    · rcases List.mem_cons.mp h2 with h2e | h2t
      · rw [← h1e] at h2e
        exact (congrArg Prod.snd h2e).symm
      · exfalso
        subst h1e
        exact hni (List.mem_map.mpr ⟨(i, q'), h2t, rfl⟩)
    · rcases List.mem_cons.mp h2 with h2e | h2t
      · exfalso
        subst h2e
        exact hni (List.mem_map.mpr ⟨(i, q), h1t, rfl⟩)
      · exact ih hnd' i q q' h1t h2t

lemma Farm.replace_loop_spec (cfg : PanelConfig) (draw : ℕ → String) (fuel : ℕ) :
    ∀ (members : List (String × Panel)) (reg : List String) (k : ℕ)
      (s nw : List (String × Panel)) (reg' : List String) (k' : ℕ),
      Farm.replace_loop cfg draw fuel members reg k = some (s, nw, reg', k') →
      s = members.filterMap replace_member_spec ∧
      nw.length = (members.filter fun e => e.2.days_to_replace = 0).length ∧
      (∀ e ∈ nw, e.1 ∉ reg ∧ e.2 = Farm.generate_panel cfg e.1) ∧
      (nw.map Prod.fst).Nodup ∧
      reg ⊆ reg' := by
  intro members
  induction members with
  | nil =>
    intro reg k s nw reg' k' h
    simp only [Farm.replace_loop, Option.some.injEq, Prod.mk.injEq] at h
    obtain ⟨hs, hnw, hreg, -⟩ := h
    subst hs hnw hreg
    exact ⟨by simp, by simp, by simp, by simp, List.Subset.refl _⟩
  | cons e rest ih =>
    intro reg k s nw reg' k' h
    obtain ⟨pid, p⟩ := e
    simp only [Farm.replace_loop] at h
    by_cases hz : p.days_to_replace = 0
    · rw [if_pos hz] at h
      cases hg : Farm.generate_id draw reg k fuel with
      | none => rw [hg] at h; exact absurd h (by simp)
      | some v =>
        obtain ⟨nid, reg1, k1⟩ := v
        rw [hg] at h
        dsimp only at h
        cases hrec : Farm.replace_loop cfg draw fuel rest reg1 k1 with
        | none => rw [hrec] at h; exact absurd h (by simp)
        | some w =>
          obtain ⟨s2, nw2, reg2, k2⟩ := w
          rw [hrec] at h
          simp only [Option.some.injEq, Prod.mk.injEq] at h
          obtain ⟨hs, hnw, hreg2, hk2⟩ := h
          subst hs hnw hreg2 hk2
          obtain ⟨hnid, hreg1⟩ := Farm.generate_id_spec hg
          subst hreg1
          obtain ⟨ihs, ihlen, ihprops, ihnd, ihsub⟩ := ih _ _ _ _ _ _ hrec
          refine ⟨?_, ?_, ?_, ?_, ?_⟩
          · rw [ihs]
            simp [replace_member_spec, hz]
          · rw [List.filter_cons]
            simp only [hz]
            simp [ihlen]
          · intro e he
            rcases List.mem_cons.mp he with rfl | he'
            · exact ⟨hnid, rfl⟩
            · obtain ⟨h1, h2⟩ := ihprops e he'
              exact ⟨fun hc => h1 (List.mem_cons_of_mem _ hc), h2⟩
          · rw [List.map_cons, List.nodup_cons]
            refine ⟨fun hc => ?_, ihnd⟩
            obtain ⟨e', he', he1⟩ := List.mem_map.mp hc
            obtain ⟨h1, -⟩ := ihprops e' he'
            exact h1 (he1 ▸ List.mem_cons_self _ _)
          · exact fun x hx => ihsub (List.mem_cons_of_mem _ hx)
    · rw [if_neg hz] at h
      by_cases hpos : 0 < p.days_to_replace
      · rw [if_pos hpos] at h
        cases hrec : Farm.replace_loop cfg draw fuel rest reg k with
        | none => rw [hrec] at h; exact absurd h (by simp)
        | some w =>
          obtain ⟨s2, nw2, reg2, k2⟩ := w
          rw [hrec] at h
          simp only [Option.some.injEq, Prod.mk.injEq] at h
          obtain ⟨hs, hnw, hreg2, hk2⟩ := h
          subst hs hnw hreg2 hk2
          obtain ⟨ihs, ihlen, ihprops, ihnd, ihsub⟩ := ih _ _ _ _ _ _ hrec
          refine ⟨?_, ?_, ihprops, ihnd, ihsub⟩
          · rw [ihs]
            simp [replace_member_spec, hz, hpos]
          · rw [List.filter_cons]
            simp [hz, ihlen]
      · rw [if_neg hpos] at h
        cases hrec : Farm.replace_loop cfg draw fuel rest reg k with
        | none => rw [hrec] at h; exact absurd h (by simp)
        | some w =>
          obtain ⟨s2, nw2, reg2, k2⟩ := w
          rw [hrec] at h
          simp only [Option.some.injEq, Prod.mk.injEq] at h
          obtain ⟨hs, hnw, hreg2, hk2⟩ := h
          subst hs hnw hreg2 hk2
          obtain ⟨ihs, ihlen, ihprops, ihnd, ihsub⟩ := ih _ _ _ _ _ _ hrec
          refine ⟨?_, ?_, ihprops, ihnd, ihsub⟩
          · rw [ihs]
            simp [replace_member_spec, hz, hpos]
          · rw [List.filter_cons]
            simp [hz, ihlen]

/-- C5: if `replace_if_needed` returns (its id-generation loop exits),
then, for a members map with distinct, registered ids: every member
with `days_to_replace = 0` is removed and the surviving members are
exactly the original ones with positive counters decremented and
`days_to_replace = -1` (or any other value) untouched; one new panel
per removed member is appended, each under a fresh id not previously
registered (so no retired id is ever reused), with
`active_hours = 0`, `health = 1.0`, `cleanliness = 1.0` and
`days_to_replace = -1`; the new ids are pairwise distinct and the
registry only grows. -/
theorem replace_if_needed_spec (cfg : PanelConfig) (draw : ℕ → String) (fuel : ℕ)
    (members : List (String × Panel)) (reg : List String) (k : ℕ)
    (hnd : (members.map Prod.fst).Nodup)
    (hreg : ∀ i ∈ members.map Prod.fst, i ∈ reg)
    (members' : List (String × Panel)) (reg' : List String) (k' : ℕ)
    (heq : Farm.replace_if_needed cfg draw fuel members reg k = some (members', reg', k')) :
    ∃ nw : List (String × Panel),
      members' = members.filterMap replace_member_spec ++ nw ∧
      nw.length = (members.filter fun e => e.2.days_to_replace = 0).length ∧
      (∀ e ∈ nw, e.1 ∉ reg ∧ e.2.active_hours = 0 ∧ e.2.health = 1 ∧
        e.2.cleanliness = 1 ∧ e.2.days_to_replace = -1) ∧
      (nw.map Prod.fst).Nodup ∧
      reg ⊆ reg' ∧
      ∀ e ∈ members, e.2.days_to_replace = 0 → e.1 ∉ members'.map Prod.fst := by
  unfold Farm.replace_if_needed at heq
  cases hrec : Farm.replace_loop cfg draw fuel members reg k with
  | none => rw [hrec] at heq; exact absurd heq (by simp)
  | some w =>
    obtain ⟨s, nw, reg2, k2⟩ := w
    rw [hrec] at heq
    simp only [Option.some.injEq, Prod.mk.injEq] at heq
    obtain ⟨hm, hr, hk⟩ := heq
    subst hm hr hk
    obtain ⟨hs, hlen, hprops, hnwnd, hsub⟩ :=
      Farm.replace_loop_spec cfg draw fuel members reg k _ _ _ _ hrec
    subst hs
    refine ⟨nw, rfl, hlen, ?_, hnwnd, hsub, ?_⟩
    · intro e he
      obtain ⟨h1, h2⟩ := hprops e he
      refine ⟨h1, ?_, ?_, ?_, ?_⟩ <;> rw [h2] <;> rfl
    · intro e he hz hmem
      rw [List.map_append] at hmem
      rcases List.mem_append.mp hmem with hin | hin
      · obtain ⟨y, hy, hy1⟩ := List.mem_map.mp hin
        obtain ⟨e', he', hke⟩ := List.mem_filterMap.mp hy
        unfold replace_member_spec at hke
        by_cases hz' : e'.2.days_to_replace = 0
        · rw [if_pos hz'] at hke
          exact absurd hke (by simp)
        · have he'1 : e'.1 = e.1 := by
            rw [if_neg hz'] at hke
            by_cases hp' : 0 < e'.2.days_to_replace
            · rw [if_pos hp'] at hke
              have h := congrArg Prod.fst (Option.some.inj hke)
              rw [← hy1]
              exact h
            · rw [if_neg hp'] at hke
              have h := congrArg Prod.fst (Option.some.inj hke)
              rw [← hy1]
              exact h
          have hmem2 : ((e.1 : String), e'.2) ∈ members := by
            rw [← he'1]
            exact he'
          have hmem1 : ((e.1 : String), e.2) ∈ members := he
          have hval := assoc_value_unique members hnd e.1 e.2 e'.2 hmem1 hmem2
          rw [← hval] at hz'
          exact hz' hz
      · obtain ⟨y, hy, hy1⟩ := List.mem_map.mp hin
        obtain ⟨h1, -⟩ := hprops y hy
        rw [hy1] at h1
        exact h1 (hreg e.1 (List.mem_map.mpr ⟨e, he, rfl⟩))

/-- C5 witness: a one-member farm whose member is due for replacement;
the member is removed and exactly one fresh default-state panel is
inserted under a new id. -/
theorem replace_if_needed_spec_witness :
    ∃ nw : List (String × Panel),
      [("CD", Farm.generate_panel cfgW "CD")]
          = [("AB", duePanel)].filterMap replace_member_spec ++ nw ∧
      nw.length = ([("AB", duePanel)].filter fun e => e.2.days_to_replace = 0).length ∧
      (∀ e ∈ nw, e.1 ∉ ["AB"] ∧ e.2.active_hours = 0 ∧ e.2.health = 1 ∧
        e.2.cleanliness = 1 ∧ e.2.days_to_replace = -1) ∧
      (nw.map Prod.fst).Nodup ∧
      (["AB"] : List String) ⊆ ["CD", "AB"] ∧
      ∀ e ∈ [("AB", duePanel)], e.2.days_to_replace = 0 →
        e.1 ∉ ([("CD", Farm.generate_panel cfgW "CD")].map Prod.fst) :=
  replace_if_needed_spec cfgW (fun _ => "CD") 1 [("AB", duePanel)] ["AB"] 0
    (by simp) (by simp) [("CD", Farm.generate_panel cfgW "CD")] ["CD", "AB"] 1 rfl
